import Mathlib

/-!
# Verification of the mock OIDC provider (`e2e/mock-oidc/server.py`)

Shallow embedding of the protocol state machine of the mock OpenID Connect
provider used by the e2e test suite: the pending-authorization store, the
refresh-token store, the `POST /authorize` handler, the two token-endpoint
grant handlers, ID-token minting, JWKS publication and startup configuration.

Python dictionaries are modelled as association lists with dictionary
semantics (`dlookup`, `dset`, `derase`); library primitives that the server
merely calls (SHA-256 plus base64url from `hashlib`/`base64`, and JWT
signing from `pyjwt`) are abstracted: the PKCE digest pipeline
`base64url(sha256(verifier))` with padding stripped is passed to the
handlers as an opaque function `s256`, and a signed JWT is modelled as its
header `kid` together with its claims record.  Freshly generated opaque
values (`uuid.uuid4()` results) are passed to each handler as explicit
arguments; their unguessability is expressed, where a theorem needs it, as
a freshness hypothesis.
-/

namespace MockOidc

/-! ## Dictionary primitives (Python `dict` on string keys) -/

/-- Python `d.get(k)` / `d[k]`: value stored under `k`, if any. -/
def dlookup {α : Type} (m : List (String × α)) (k : String) : Option α :=
  (m.find? (fun p => p.1 = k)).map (fun p => p.2)

/-- Python `d[k] = v`: replace the value in place if `k` is present,
otherwise append a new entry (insertion order is preserved, as in CPython). -/
def dset {α : Type} (m : List (String × α)) (k : String) (v : α) :
    List (String × α) :=
  if m.any (fun p => p.1 = k) then
    m.map (fun p => if p.1 = k then (k, v) else p)
  else
    m ++ [(k, v)]

/-- Python `d.pop(k, None)` / `del d[k]`: drop every entry keyed `k`. -/
def derase {α : Type} (m : List (String × α)) (k : String) :
    List (String × α) :=
  m.filter (fun p => ¬ p.1 = k)

/-! ## Data model -/

/-- Value stored in `_auth_codes` under an authorization code
(`server.py`, `authorize_submit`). -/
structure PendingAuthorization where
  client_id : String
  redirect_uri : String
  code_challenge : String
  nonce : String
  username : String
  scope : String
deriving DecidableEq, Repr

/-- Value stored in `_refresh_tokens` under a refresh-token value. -/
structure RefreshRecord where
  client_id : String
  username : String
  scope : String
deriving DecidableEq, Repr

/-- The two shared in-memory stores of the server. -/
structure ServerState where
  auth_codes : List (String × PendingAuthorization)
  refresh_tokens : List (String × RefreshRecord)
deriving DecidableEq, Repr

/-- Claims of a minted ID token (`_make_id_token`).  `nonce = none` models
the absence of the `nonce` claim in the signed payload. -/
structure IdTokenClaims where
  iss : String
  sub : String
  aud : String
  exp : Nat
  iat : Nat
  email : String
  preferred_username : String
  device_id : String
  device_type : String
  device_name : String
  nonce : Option String
deriving DecidableEq, Repr

/-- A signed JWT, abstracted to its header `kid` and its claims
(`jwt.encode(claims, key, algorithm="RS256", headers={"kid": kid})`). -/
structure IdToken where
  kid : String
  claims : IdTokenClaims
deriving DecidableEq, Repr

/-- One public key entry of the JWKS document. -/
structure Jwk where
  kty : String
  kid : String
  use : String
  alg : String
  n : String
  e : String
deriving DecidableEq, Repr

/-- The fixed key id `_kid = "mock-oidc-key-1"`. -/
def mockKid : String := "mock-oidc-key-1"

/-- The published JWKS document, parameterised by the base64url encodings of
the RSA public numbers (the key pair itself is generated by the
`cryptography` library at startup). -/
def jwksDoc (nEnc eEnc : String) : List Jwk :=
  [{ kty := "RSA", kid := mockKid, use := "sig", alg := "RS256",
     n := nEnc, e := eEnc }]

/-- Python truthiness of an optional string (`if nonce:`): `None` and the
empty string are falsy. -/
def pyTruthy : Option String → Bool
  | none => false
  | some s => s ≠ ""

/-- `_make_id_token(username, client_id, nonce)`: build the claims payload
and sign it under the fixed `kid`.  `now` stands for `int(time.time())`. -/
def makeIdToken (iss : String) (now : Nat) (username client_id : String)
    (nonce : Option String) : IdToken :=
  { kid := mockKid,
    claims :=
      { iss := iss
        sub := username
        aud := client_id
        exp := now + 3600
        iat := now
        email := username ++ "@test.local"
        preferred_username := username
        device_id := "e2e-device"
        device_type := "web"
        device_name := "E2E Test Browser"
        nonce := if pyTruthy nonce then nonce else none } }

/-! ## Query-string handling (`urllib.parse`)

Percent-encoding is taken as the identity: the claims and counterexamples
below only involve characters that `quote_plus`/`unquote_plus` leave
unchanged, so `urlencode` after `parse_qs` round-trips the text itself. -/

/-- Split a character list at every occurrence of `sep`
(Python `s.split(sep)` for a one-character separator, which is the only
kind the server uses). -/
def splitAllChar (sep : Char) : List Char → List (List Char)
  | [] => [[]]
  | c :: rest =>
    match splitAllChar sep rest with
    | [] => [[c]]
    | h :: t => if c = sep then [] :: h :: t else (c :: h) :: t

/-- `s.split(sep)` on strings, one-character separator. -/
def splitAll (sep : Char) (s : String) : List String :=
  (splitAllChar sep s.data).map (fun l => String.mk l)

/-- Split a character list at the first occurrence of `sep`: the part
before it, and the remainder when `sep` occurs at all. -/
def breakAtChar (sep : Char) : List Char → List Char × Option (List Char)
  | [] => ([], none)
  | c :: rest =>
    if c = sep then ([], some rest)
    else
      let p := breakAtChar sep rest
      (c :: p.1, p.2)

/-- `s.split(sep, 1)` reduced to its two results: the part before the
first occurrence of `sep` and the remainder (empty when `sep` is
absent). -/
def splitFirst (sep : Char) (s : String) : String × String :=
  let p := breakAtChar sep s.data
  (String.mk p.1, match p.2 with | none => "" | some r => String.mk r)

/-- `urllib.parse.parse_qsl(q)` with the default `keep_blank_values=False`:
split on `&`, skip empty segments, split each segment at the first `=`, and
drop pairs whose value is empty (both `foo` and `foo=` are dropped). -/
def parseQsl (q : String) : List (String × String) :=
  (splitAll '&' q).filterMap (fun nv =>
    if nv = "" then none
    else
      let p := splitFirst '=' nv
      if p.2 = "" then none else some p)

/-- One step of `parse_qs` grouping: append `v` to the entry for `k`, or
append a new `(k, [v])` entry at the end. -/
def addPair (m : List (String × List String)) (k v : String) :
    List (String × List String) :=
  if m.any (fun p => p.1 = k) then
    m.map (fun p => if p.1 = k then (p.1, p.2 ++ [v]) else p)
  else
    m ++ [(k, [v])]

/-- `urllib.parse.parse_qs(q)`: pairs grouped into a dict from name to the
list of values, keyed in order of first occurrence. -/
def parseQs (q : String) : List (String × List String) :=
  (parseQsl q).foldl (fun m p => addPair m p.1 p.2) []

/-- Join segments with `&` (the serialization step of `urlencode`). -/
def joinAmp : List String → String
  | [] => ""
  | [x] => x
  | x :: rest => x ++ "&" ++ joinAmp rest

/-- `urlencode(qs, doseq=True)` restricted to the Flask handler's shape:
flatten the grouped dict back to `k=v` segments joined by `&`. -/
def urlencodeDoseq (m : List (String × List String)) : String :=
  joinAmp (m.flatMap (fun p => p.2.map (fun v => p.1 ++ "=" ++ v)))

/-- `urlparse` reduced to what the handler uses: split the URI at the first
`?` into the part kept verbatim and the query string (URIs without a
fragment, which is all the flow ever produces). -/
def urlsplitQ (uri : String) : String × String :=
  splitFirst '?' uri

/-- The query dict of the success redirect (`authorize_submit`, lines
178–182): parse the query of `redirect_uri`, overwrite `code`, and
overwrite `state` only when the submitted `state` is truthy. -/
def redirectQs (query code state : String) : List (String × List String) :=
  let qs := dset (parseQs query) "code" [code]
  if state ≠ "" then dset qs "state" [state] else qs

/-- The full redirect target built by `authorize_submit`:
`urlunparse(parsed._replace(query=new_query))`. -/
def buildRedirect (redirect_uri code state : String) : String :=
  let p := urlsplitQ redirect_uri
  p.1 ++ "?" ++ urlencodeDoseq (redirectQs p.2 code state)

/-! ## Startup configuration -/

/-- Default issuer used when `MOCK_OIDC_ISSUER` is absent. -/
def defaultIssuer : String := "http://mock-oidc:8080"

/-- Default user directory used when `MOCK_OIDC_USERS` is absent. -/
def defaultUsersRaw : String := "testuser:testpass123,admin:adminpass123"

/-- Python `str.strip()`: drop leading and trailing whitespace. -/
def pyStrip (s : String) : String :=
  String.mk
    (((s.data.dropWhile Char.isWhitespace).reverse.dropWhile
      Char.isWhitespace).reverse)

/-- The `USERS` loading loop: split the raw value on `,`, strip each pair,
and for pairs containing `:` split at the first `:` into user and
password. -/
def parseUsersCfg (raw : String) : List (String × String) :=
  (splitAll ',' raw).foldl (fun m pair =>
    let p := pyStrip pair
    if p.data.any (fun ch => ch = ':') then
      let up := splitFirst ':' p
      dset m up.1 up.2
    else m) []

/-- The resolved startup configuration. -/
structure ServerConfig where
  issuer : String
  users : List (String × String)
deriving DecidableEq, Repr

/-- Startup configuration loading.  The arguments are the raw environment
values (`none` = variable not set); a `none` result would model a fatal
startup failure.  The source resolves both values with
`os.environ.get(name, default)`, so loading always succeeds. -/
def loadConfig (issuerEnv usersEnv : Option String) : Option ServerConfig :=
  some { issuer := issuerEnv.getD defaultIssuer,
         users := parseUsersCfg (usersEnv.getD defaultUsersRaw) }

/-! ## `POST /authorize` -/

/-- The submitted form, field by field; `none` models an absent field, so
`request.form.get(name, default)` becomes `Option.getD`. -/
structure AuthorizeForm where
  username : Option String
  password : Option String
  redirect_uri : Option String
  client_id : Option String
  state : Option String
  nonce : Option String
  code_challenge : Option String
  scope : Option String
deriving DecidableEq, Repr

/-- Outcome of `authorize_submit`: a 401 plain-text response with no
`Location` header, or a redirect to the given target. -/
inductive AuthorizeResult where
  | unauthorized (body : String) (status : Nat)
  | redirectTo (location : String)
deriving DecidableEq, Repr

/-- `authorize_submit` (`server.py` lines 153–184).  `users` is the loaded
`USERS` directory and `freshCode` stands for the `str(uuid.uuid4())`
generated on success. -/
def authorizeSubmit (users : List (String × String)) (freshCode : String)
    (form : AuthorizeForm) (st : ServerState) :
    AuthorizeResult × ServerState :=
  let username := form.username.getD ""
  let password := form.password.getD ""
  let redirect_uri := form.redirect_uri.getD ""
  let client_id := form.client_id.getD ""
  let state := form.state.getD ""
  let nonce := form.nonce.getD ""
  let code_challenge := form.code_challenge.getD ""
  let scope := form.scope.getD "openid"
  if dlookup users username ≠ some password then
    (AuthorizeResult.unauthorized "Invalid credentials" 401, st)
  else
    let record : PendingAuthorization :=
      { client_id := client_id, redirect_uri := redirect_uri,
        code_challenge := code_challenge, nonce := nonce,
        username := username, scope := scope }
    (AuthorizeResult.redirectTo (buildRedirect redirect_uri freshCode state),
     { st with auth_codes := dset st.auth_codes freshCode record })

/-! ## `POST /token` -/

/-- Successful token-endpoint response body (both grant paths). -/
structure TokenResponse where
  access_token : String
  token_type : String
  expires_in : Nat
  id_token : IdToken
  refresh_token : String
  scope : String
deriving DecidableEq, Repr

/-- Result of a token-endpoint call: a 200 body, a 400 `invalid_grant` with
its `error_description`, or a 400 `unsupported_grant_type`. -/
inductive TokenResult where
  | success (resp : TokenResponse)
  | invalidGrant (description : String)
  | unsupportedGrant
deriving DecidableEq, Repr

/-- `_handle_authorization_code` (`server.py` lines 194–232).  `s256`
abstracts `base64.urlsafe_b64encode(hashlib.sha256(v.encode()).digest())`
with the `=` padding stripped; `freshRefresh` and `freshAccess` stand for
the two `str(uuid.uuid4())` values generated on success. -/
def handleAuthorizationCode (s256 : String → String) (iss : String)
    (now : Nat) (freshRefresh freshAccess : String)
    (code code_verifier : String) (st : ServerState) :
    TokenResult × ServerState :=
  let stored? := dlookup st.auth_codes code
  let st1 : ServerState := { st with auth_codes := derase st.auth_codes code }
  match stored? with
  | none => (TokenResult.invalidGrant "Unknown code", st1)
  | some stored =>
    if stored.code_challenge ≠ "" ∧ s256 code_verifier ≠ stored.code_challenge
    then
      (TokenResult.invalidGrant "PKCE mismatch", st1)
    else
      let idt := makeIdToken iss now stored.username stored.client_id
        (some stored.nonce)
      let record : RefreshRecord :=
        { client_id := stored.client_id, username := stored.username,
          scope := stored.scope }
      (TokenResult.success
        { access_token := freshAccess, token_type := "Bearer",
          expires_in := 3600, id_token := idt,
          refresh_token := freshRefresh, scope := stored.scope },
       { st1 with
          refresh_tokens := dset st1.refresh_tokens freshRefresh record })

/-- `_handle_refresh_token` (`server.py` lines 235–263): look the record
up, mint a nonce-free ID token, insert the record under the fresh value,
then delete the old entry. -/
def handleRefreshToken (iss : String) (now : Nat)
    (freshTok freshAccess tok : String) (st : ServerState) :
    TokenResult × ServerState :=
  match dlookup st.refresh_tokens tok with
  | none => (TokenResult.invalidGrant "Unknown refresh token", st)
  | some stored =>
    let idt := makeIdToken iss now stored.username stored.client_id none
    let m1 := dset st.refresh_tokens freshTok stored
    (TokenResult.success
      { access_token := freshAccess, token_type := "Bearer",
        expires_in := 3600, id_token := idt,
        refresh_token := freshTok, scope := stored.scope },
     { st with refresh_tokens := derase m1 tok })

/-- The `POST /token` dispatcher on `grant_type`. -/
def tokenEndpoint (s256 : String → String) (iss : String) (now : Nat)
    (freshTok freshAccess : String) (grant_type : Option String)
    (code code_verifier refresh_token : String) (st : ServerState) :
    TokenResult × ServerState :=
  match grant_type with
  | some "authorization_code" =>
    handleAuthorizationCode s256 iss now freshTok freshAccess code
      code_verifier st
  | some "refresh_token" =>
    handleRefreshToken iss now freshTok freshAccess refresh_token st
  | _ => (TokenResult.unsupportedGrant, st)

/-! ## Operation sequences on the server state

Only the three state-touching handlers matter for temporal claims; the GET
endpoints never write the stores. -/

/-- One inbound state-touching request, carrying the fresh opaque values
the handler would generate. -/
inductive Op where
  | opAuthorize (freshCode : String) (form : AuthorizeForm)
  | opExchange (freshRefresh freshAccess code verifier : String)
  | opRefresh (freshTok freshAccess tok : String)
deriving Repr

/-- State reached after one request. -/
def applyOp (s256 : String → String) (iss : String) (now : Nat)
    (users : List (String × String)) (st : ServerState) : Op → ServerState
  | Op.opAuthorize fc form => (authorizeSubmit users fc form st).2
  | Op.opExchange fr fa c v =>
    (handleAuthorizationCode s256 iss now fr fa c v st).2
  | Op.opRefresh ft fa t => (handleRefreshToken iss now ft fa t st).2

/-- State reached after a sequence of requests. -/
def applyOps (s256 : String → String) (iss : String) (now : Nat)
    (users : List (String × String)) (st : ServerState) (ops : List Op) :
    ServerState :=
  ops.foldl (applyOp s256 iss now users) st

/-- The request does not generate `c` as a fresh authorization code
(`uuid.uuid4()` collisions are excluded by unguessability). -/
def avoidsCode (c : String) : Op → Prop
  | Op.opAuthorize fc _ => fc ≠ c
  | _ => True

/-- The request does not generate `t` as a fresh refresh-token value. -/
def avoidsTok (t : String) : Op → Prop
  | Op.opExchange fr _ _ _ => fr ≠ t
  | Op.opRefresh ft _ _ => ft ≠ t
  | _ => True

/-! ## Interleaved executions of two token-endpoint handlers

Each handler invocation is split into its atomic accesses to the shared
store; a schedule interleaves the accesses of two invocations.  The
authorization-code handler touches `_auth_codes` exactly once
(`_auth_codes.pop(code, None)`); the refresh handler touches
`_refresh_tokens` three times (`get`, item assignment, `del`), and `del`
raises `KeyError` when the key is already gone. -/

/-- Progress of one refresh-handler invocation through its store accesses. -/
inductive RPhase where
  | start
  | gotRecord (r : RefreshRecord)
  | inserted (r : RefreshRecord)
  | doneSuccess (r : RefreshRecord)
  | doneInvalid
  | crashed
deriving DecidableEq, Repr

/-- One refresh-handler invocation: its input token, the fresh value it
will install, and its progress. -/
structure RThread where
  tok : String
  newTok : String
  phase : RPhase
deriving DecidableEq, Repr

/-- One atomic store access of `_handle_refresh_token`:
`get` (line 242), the item assignment (line 253), `del` (line 254, raising
`KeyError` → HTTP 500 when the entry is already gone). -/
def rStep (store : List (String × RefreshRecord)) (t : RThread) :
    List (String × RefreshRecord) × RThread :=
  match t.phase with
  | RPhase.start =>
    match dlookup store t.tok with
    | none => (store, { t with phase := RPhase.doneInvalid })
    | some r => (store, { t with phase := RPhase.gotRecord r })
  | RPhase.gotRecord r =>
    (dset store t.newTok r, { t with phase := RPhase.inserted r })
  | RPhase.inserted r =>
    match dlookup store t.tok with
    | none => (store, { t with phase := RPhase.crashed })
    | some _ => (derase store t.tok, { t with phase := RPhase.doneSuccess r })
  | _ => (store, t)

/-- Two refresh-handler invocations over the shared store. -/
structure RSystem where
  store : List (String × RefreshRecord)
  ta : RThread
  tb : RThread
deriving DecidableEq, Repr

/-- Run a schedule: `true` steps the first invocation, `false` the second. -/
def rRun (sys : RSystem) : List Bool → RSystem
  | [] => sys
  | pick :: rest =>
    let sys1 :=
      if pick then
        let s := rStep sys.store sys.ta
        { sys with store := s.1, ta := s.2 }
      else
        let s := rStep sys.store sys.tb
        { sys with store := s.1, tb := s.2 }
    rRun sys1 rest

/-- Progress of one authorization-code exchange through its single store
access: the atomic `pop` either observes and consumes the record or finds
it gone.  (The PKCE check that follows reads no shared state.) -/
inductive CPhase where
  | start
  | popped (r : PendingAuthorization)
  | doneInvalid
deriving DecidableEq, Repr

/-- One code-exchange invocation. -/
structure CThread where
  code : String
  phase : CPhase
deriving DecidableEq, Repr

/-- The single atomic store access of `_handle_authorization_code`:
`_auth_codes.pop(code, None)` (line 199). -/
def cStep (store : List (String × PendingAuthorization)) (t : CThread) :
    List (String × PendingAuthorization) × CThread :=
  match t.phase with
  | CPhase.start =>
    match dlookup store t.code with
    | none => (store, { t with phase := CPhase.doneInvalid })
    | some r => (derase store t.code, { t with phase := CPhase.popped r })
  | _ => (store, t)

/-- Two code-exchange invocations over the shared store. -/
structure CSystem where
  store : List (String × PendingAuthorization)
  ta : CThread
  tb : CThread
deriving DecidableEq, Repr

/-- Run a schedule: `true` steps the first invocation, `false` the second. -/
def cRun (sys : CSystem) : List Bool → CSystem
  | [] => sys
  | pick :: rest =>
    let sys1 :=
      if pick then
        let s := cStep sys.store sys.ta
        { sys with store := s.1, ta := s.2 }
      else
        let s := cStep sys.store sys.tb
        { sys with store := s.1, tb := s.2 }
    cRun sys1 rest

/-- A code-exchange invocation observed (and consumed) the record. -/
def cObserved : CPhase → Bool
  | CPhase.popped _ => true
  | _ => false

/-! ## Dictionary lemmas -/


theorem dlookup_cons {α : Type} (p : String × α) (t : List (String × α))
    (k : String) :
    dlookup (p :: t) k = if p.1 = k then some p.2 else dlookup t k := by
  by_cases h : p.1 = k <;> simp [dlookup, List.find?_cons, h]

theorem dlookup_append {α : Type} (l₁ l₂ : List (String × α)) (k : String) :
    dlookup (l₁ ++ l₂) k = (dlookup l₁ k).or (dlookup l₂ k) := by
  unfold dlookup
  rw [List.find?_append]
  cases List.find? (fun p => decide (p.1 = k)) l₁ <;> simp

theorem derase_cons {α : Type} (p : String × α) (t : List (String × α))
    (k : String) :
    derase (p :: t) k = if p.1 = k then derase t k else p :: derase t k := by
  by_cases h : p.1 = k <;> simp [derase, List.filter_cons, h]

theorem dlookup_derase {α : Type} (m : List (String × α)) (k c : String) :
    dlookup (derase m k) c = if c = k then none else dlookup m c := by
  induction m with
  | nil => cases Decidable.em (c = k) <;> simp [derase, dlookup, *]
  | cons p t ih =>
    rw [derase_cons]
    by_cases hp : p.1 = k
    · rw [if_pos hp, ih]
      by_cases hc : c = k
      · simp [hc]
      · have hpc : p.1 ≠ c := by rw [hp]; exact fun hkc => hc hkc.symm
        simp [hc, dlookup_cons, hpc]
    · rw [if_neg hp, dlookup_cons, dlookup_cons, ih]
      by_cases hpc : p.1 = c
      · have hck : ¬ c = k := by rw [← hpc]; exact hp ∘ (· ▸ rfl)
        simp [hpc, hck]
      · simp [hpc]

theorem dlookup_eq_none_of_any_false {α : Type} {m : List (String × α)}
    {k : String} (h : m.any (fun p => p.1 = k) = false) :
    dlookup m k = none := by
  unfold dlookup
  rw [List.find?_eq_none.mpr]
  · rfl
  · intro x hx hk
    have : m.any (fun p => p.1 = k) = true :=
      List.any_eq_true.mpr ⟨x, hx, hk⟩
    rw [this] at h
    exact Bool.noConfusion h

theorem lookup_mapset_ne {α : Type} (m : List (String × α)) {c k : String}
    (v : α) (h : c ≠ k) :
    dlookup (m.map (fun p => if p.1 = k then (k, v) else p)) c
      = dlookup m c := by
  induction m with
  | nil => rfl
  | cons p t ih =>
    rw [List.map_cons, dlookup_cons, dlookup_cons]
    by_cases hp : p.1 = k
    · have : ((k, v) : String × α).1 ≠ c := fun hkc => h (hkc.symm)
      simp only [if_pos hp]
      rw [if_neg this]
      by_cases hpc : p.1 = c
      · exact absurd (hp ▸ hpc : k = c) (fun hkc => h hkc.symm)
      · rw [if_neg hpc, ih]
    · simp only [if_neg hp]
      by_cases hpc : p.1 = c
      · rw [if_pos hpc, if_pos hpc]
      · rw [if_neg hpc, if_neg hpc, ih]

theorem lookup_mapset_self {α : Type} (m : List (String × α)) {k : String}
    (v : α) (h : m.any (fun p => p.1 = k) = true) :
    dlookup (m.map (fun p => if p.1 = k then (k, v) else p)) k = some v := by
  induction m with
  | nil => simp at h
  | cons p t ih =>
    rw [List.map_cons, dlookup_cons]
    by_cases hp : p.1 = k
    · rw [if_pos hp]
      simp
    · rw [if_neg hp]
      have ht : t.any (fun p => p.1 = k) = true := by
        rw [List.any_cons] at h
        simpa [hp] using h
      rw [if_neg (by simpa using hp)]
      exact ih ht

theorem dlookup_dset {α : Type} (m : List (String × α)) (k c : String)
    (v : α) :
    dlookup (dset m k v) c = if c = k then some v else dlookup m c := by
  unfold dset
  by_cases hany : m.any (fun p => p.1 = k) = true
  · rw [if_pos hany]
    by_cases hc : c = k
    · subst hc
      rw [if_pos rfl, lookup_mapset_self m v hany]
    · rw [if_neg hc, lookup_mapset_ne m v hc]
  · rw [if_neg hany, dlookup_append]
    by_cases hc : c = k
    · subst hc
      rw [if_pos rfl,
        dlookup_eq_none_of_any_false (Bool.eq_false_iff.mpr hany)]
      simp [dlookup]
    · rw [if_neg hc]
      have hkc : ((k, v) : String × α).1 ≠ c := fun h => hc h.symm
      have : dlookup [(k, v)] c = none := by
        rw [dlookup_cons, if_neg hkc]
        rfl
      rw [this]
      cases dlookup m c <;> rfl


/-! ## Membership lemmas for `dset` -/

theorem mem_dset_of_ne {α : Type} {m : List (String × α)} {q : String × α}
    {k : String} (v : α) (hq : q ∈ m) (hne : q.1 ≠ k) : q ∈ dset m k v := by
  unfold dset
  split
  · have := List.mem_map_of_mem (fun p => if p.1 = k then (k, v) else p) hq
    simpa [hne] using this
  · exact List.mem_append_left _ hq

theorem mem_dset_self {α : Type} (m : List (String × α)) (k : String)
    (v : α) : (k, v) ∈ dset m k v := by
  unfold dset
  split
  · rename_i hany
    obtain ⟨p, hp, hk⟩ := List.any_eq_true.mp hany
    have hk' : p.1 = k := by simpa using hk
    have := List.mem_map_of_mem (fun p => if p.1 = k then (k, v) else p) hp
    simpa [hk'] using this
  · exact List.mem_append_right _ (List.mem_singleton.mpr rfl)

/-! ## Handler shapes -/

theorem exchange_auth_codes (s256 : String → String) (iss : String)
    (now : Nat) (fr fa code v : String) (st : ServerState) :
    (handleAuthorizationCode s256 iss now fr fa code v st).2.auth_codes
      = derase st.auth_codes code := by
  unfold handleAuthorizationCode
  cases dlookup st.auth_codes code with
  | none => rfl
  | some stored =>
    simp only []
    split <;> rfl

theorem exchange_refresh_tokens_none (s256 : String → String) (iss : String)
    (now : Nat) {fr : String} (fa code v : String) {st : ServerState}
    {t : String} (hfr : fr ≠ t)
    (h : dlookup st.refresh_tokens t = none) :
    dlookup (handleAuthorizationCode s256 iss now fr fa code v
      st).2.refresh_tokens t = none := by
  unfold handleAuthorizationCode
  cases dlookup st.auth_codes code with
  | none => exact h
  | some stored =>
    simp only []
    split
    · exact h
    · simp only []
      rw [dlookup_dset]
      rw [if_neg (fun hc => hfr hc.symm)]
      exact h

theorem refresh_auth_codes (iss : String) (now : Nat) (ft fa tok : String)
    (st : ServerState) :
    (handleRefreshToken iss now ft fa tok st).2.auth_codes
      = st.auth_codes := by
  unfold handleRefreshToken
  cases dlookup st.refresh_tokens tok <;> rfl

theorem refresh_refresh_tokens_none (iss : String) (now : Nat)
    {ft : String} (fa tok : String) {st : ServerState} {t : String}
    (hft : ft ≠ t) (h : dlookup st.refresh_tokens t = none) :
    dlookup (handleRefreshToken iss now ft fa tok st).2.refresh_tokens t
      = none := by
  unfold handleRefreshToken
  cases dlookup st.refresh_tokens tok with
  | none => exact h
  | some stored =>
    simp only []
    rw [dlookup_derase]
    split
    · rfl
    · rw [dlookup_dset, if_neg (fun hc => hft hc.symm)]
      exact h

theorem authorize_refresh_tokens (users : List (String × String))
    (fc : String) (form : AuthorizeForm) (st : ServerState) :
    (authorizeSubmit users fc form st).2.refresh_tokens
      = st.refresh_tokens := by
  simp only [authorizeSubmit]
  split <;> rfl

theorem authorize_auth_codes_none (users : List (String × String))
    {fc : String} (form : AuthorizeForm) {st : ServerState} {c : String}
    (hfc : fc ≠ c) (h : dlookup st.auth_codes c = none) :
    dlookup (authorizeSubmit users fc form st).2.auth_codes c = none := by
  simp only [authorizeSubmit]
  split
  · exact h
  · simp only []
    rw [dlookup_dset, if_neg (fun hc => hfc hc.symm)]
    exact h

/-! ## Invariants along request sequences -/

theorem auth_codes_applyOp_none {s256 : String → String} {iss : String}
    {now : Nat} {users : List (String × String)} {st : ServerState}
    {c : String} {op : Op} (h : dlookup st.auth_codes c = none)
    (hop : avoidsCode c op) :
    dlookup (applyOp s256 iss now users st op).auth_codes c = none := by
  cases op with
  | opAuthorize fc form => exact authorize_auth_codes_none users form hop h
  | opExchange fr fa code v =>
    rw [applyOp, exchange_auth_codes, dlookup_derase]
    split
    · rfl
    · exact h
  | opRefresh ft fa tok =>
    rw [applyOp, refresh_auth_codes]
    exact h

theorem auth_codes_applyOps_none {s256 : String → String} {iss : String}
    {now : Nat} {users : List (String × String)} {st : ServerState}
    {c : String} {ops : List Op} (h : dlookup st.auth_codes c = none)
    (hops : ∀ op ∈ ops, avoidsCode c op) :
    dlookup (applyOps s256 iss now users st ops).auth_codes c = none := by
  induction ops generalizing st with
  | nil => exact h
  | cons op rest ih =>
    exact ih
      (auth_codes_applyOp_none h (hops op (List.mem_cons_self op rest)))
      (fun o ho => hops o (List.mem_cons_of_mem op ho))

theorem refresh_tokens_applyOp_none {s256 : String → String} {iss : String}
    {now : Nat} {users : List (String × String)} {st : ServerState}
    {t : String} {op : Op} (h : dlookup st.refresh_tokens t = none)
    (hop : avoidsTok t op) :
    dlookup (applyOp s256 iss now users st op).refresh_tokens t = none := by
  cases op with
  | opAuthorize fc form =>
    rw [applyOp, authorize_refresh_tokens]
    exact h
  | opExchange fr fa code v =>
    exact exchange_refresh_tokens_none s256 iss now fa code v hop h
  | opRefresh ft fa tok =>
    exact refresh_refresh_tokens_none iss now fa tok hop h

theorem refresh_tokens_applyOps_none {s256 : String → String} {iss : String}
    {now : Nat} {users : List (String × String)} {st : ServerState}
    {t : String} {ops : List Op} (h : dlookup st.refresh_tokens t = none)
    (hops : ∀ op ∈ ops, avoidsTok t op) :
    dlookup (applyOps s256 iss now users st ops).refresh_tokens t = none := by
  induction ops generalizing st with
  | nil => exact h
  | cons op rest ih =>
    exact ih
      (refresh_tokens_applyOp_none h (hops op (List.mem_cons_self op rest)))
      (fun o ho => hops o (List.mem_cons_of_mem op ho))

theorem exchange_unknown_code {s256 : String → String} {iss : String}
    {now : Nat} {fr fa code v : String} {st : ServerState}
    (h : dlookup st.auth_codes code = none) :
    (handleAuthorizationCode s256 iss now fr fa code v st).1
      = TokenResult.invalidGrant "Unknown code" := by
  unfold handleAuthorizationCode
  rw [h]

theorem refresh_unknown_token {iss : String} {now : Nat}
    {ft fa tok : String} {st : ServerState}
    (h : dlookup st.refresh_tokens tok = none) :
    (handleRefreshToken iss now ft fa tok st).1
      = TokenResult.invalidGrant "Unknown refresh token" := by
  unfold handleRefreshToken
  rw [h]


/-! ## Values produced by `parse_qs` are non-empty -/

theorem parseQsl_snd_ne {q : String} {p : String × String}
    (hp : p ∈ parseQsl q) : p.2 ≠ "" := by
  simp only [parseQsl, List.mem_filterMap] at hp
  obtain ⟨nv, hnv, h⟩ := hp
  by_cases h1 : nv = ""
  · rw [if_pos h1] at h
    exact absurd h (by simp)
  · rw [if_neg h1] at h
    by_cases h2 : (splitFirst '=' nv).2 = ""
    · rw [if_pos h2] at h
      exact absurd h (by simp)
    · rw [if_neg h2] at h
      cases h
      exact h2

theorem addPair_goodVals {P : String → Prop}
    {m : List (String × List String)} {k v : String}
    (hm : ∀ q ∈ m, q.2 ≠ [] ∧ ∀ x ∈ q.2, P x) (hv : P v) :
    ∀ q ∈ addPair m k v, q.2 ≠ [] ∧ ∀ x ∈ q.2, P x := by
  intro q hq
  unfold addPair at hq
  split at hq
  · rw [List.mem_map] at hq
    obtain ⟨p, hp, hfp⟩ := hq
    by_cases hk : p.1 = k
    · rw [if_pos hk] at hfp
      subst hfp
      refine ⟨by simp, ?_⟩
      intro x hx
      rcases List.mem_append.mp hx with h | h
      · exact (hm p hp).2 x h
      · rw [List.mem_singleton.mp h]
        exact hv
    · rw [if_neg hk] at hfp
      subst hfp
      exact hm p hp
  · rcases List.mem_append.mp hq with h | h
    · exact hm q h
    · rw [List.mem_singleton.mp h]
      exact ⟨by simp, by simpa using hv⟩

theorem foldl_addPair_goodVals {P : String → Prop}
    (l : List (String × String)) (hl : ∀ p ∈ l, P p.2) :
    ∀ acc : List (String × List String),
      (∀ q ∈ acc, q.2 ≠ [] ∧ ∀ x ∈ q.2, P x) →
      ∀ q ∈ l.foldl (fun m p => addPair m p.1 p.2) acc,
        q.2 ≠ [] ∧ ∀ x ∈ q.2, P x := by
  induction l with
  | nil => intro acc hacc; exact hacc
  | cons p t ih =>
    intro acc hacc
    exact ih (fun r hr => hl r (List.mem_cons_of_mem p hr)) _
      (addPair_goodVals hacc (hl p (List.mem_cons_self p t)))

theorem parseQs_goodVals {q : String} :
    ∀ p ∈ parseQs q, p.2 ≠ [] ∧ ∀ v ∈ p.2, v ≠ "" := by
  unfold parseQs
  exact foldl_addPair_goodVals (parseQsl q)
    (fun p hp => parseQsl_snd_ne hp) [] (by simp)

/-! ## Pair-interleaving safety for the code store -/

/-- Invariant of a pair of exchanges of the same code: once either
invocation has observed the record, the store no longer holds the code,
and the two invocations can never both have observed it. -/
def cInv (c : String) (sys : CSystem) : Prop :=
  sys.ta.code = c ∧ sys.tb.code = c ∧
  (cObserved sys.ta.phase = true → dlookup sys.store c = none) ∧
  (cObserved sys.tb.phase = true → dlookup sys.store c = none) ∧
  (cObserved sys.ta.phase && cObserved sys.tb.phase) = false

theorem cInv_step_ta {c : String} {sys : CSystem} (h : cInv c sys) :
    cInv c { sys with store := (cStep sys.store sys.ta).1,
                      ta := (cStep sys.store sys.ta).2 } := by
  obtain ⟨ha, hb, hoa, hob, hnb⟩ := h
  cases hp : sys.ta.phase with
  | start =>
    cases hd : dlookup sys.store sys.ta.code with
    | none =>
      have hdc : dlookup sys.store c = none := by rw [← ha]; exact hd
      refine ⟨?_, ?_, ?_, ?_, ?_⟩ <;>
        simp [cStep, hp, hd, hdc, cObserved, ha, hb, hob, hnb]
    | some r =>
      have hdc : dlookup sys.store c = some r := by rw [← ha]; exact hd
      have hbno : ¬ cObserved sys.tb.phase := fun hbo => by
        rw [hob hbo] at hdc
        exact Option.noConfusion hdc
      refine ⟨?_, ?_, ?_, ?_, ?_⟩
      · simpa [cStep, hp, hd] using ha
      · simpa [cStep, hp, hd] using hb
      · intro _
        simp only [cStep, hp, hd]
        rw [ha, dlookup_derase, if_pos rfl]
      · intro hbo
        exact absurd hbo hbno
      · have hbf : cObserved sys.tb.phase = false := Bool.eq_false_iff.mpr hbno
        simp [cStep, hp, hd, hbf]
  | popped r =>
    have : cStep sys.store sys.ta = (sys.store, sys.ta) := by
      rw [cStep, hp]
    rw [this]
    exact ⟨ha, hb, hoa, hob, hnb⟩
  | doneInvalid =>
    have : cStep sys.store sys.ta = (sys.store, sys.ta) := by
      rw [cStep, hp]
    rw [this]
    exact ⟨ha, hb, hoa, hob, hnb⟩

theorem cInv_step_tb {c : String} {sys : CSystem} (h : cInv c sys) :
    cInv c { sys with store := (cStep sys.store sys.tb).1,
                      tb := (cStep sys.store sys.tb).2 } := by
  obtain ⟨ha, hb, hoa, hob, hnb⟩ := h
  cases hp : sys.tb.phase with
  | start =>
    cases hd : dlookup sys.store sys.tb.code with
    | none =>
      have hdc : dlookup sys.store c = none := by rw [← hb]; exact hd
      refine ⟨?_, ?_, ?_, ?_, ?_⟩ <;>
        simp [cStep, hp, hd, hdc, cObserved, ha, hb, hoa, hnb]
    | some r =>
      have hdc : dlookup sys.store c = some r := by rw [← hb]; exact hd
      have hano : ¬ cObserved sys.ta.phase := fun hao => by
        rw [hoa hao] at hdc
        exact Option.noConfusion hdc
      refine ⟨?_, ?_, ?_, ?_, ?_⟩
      · simpa [cStep, hp, hd] using ha
      · simpa [cStep, hp, hd] using hb
      · intro hao
        exact absurd hao hano
      · intro _
        simp only [cStep, hp, hd]
        rw [hb, dlookup_derase, if_pos rfl]
      · have haf : cObserved sys.ta.phase = false := Bool.eq_false_iff.mpr hano
        simp [cStep, hp, hd, haf]
  | popped r =>
    have : cStep sys.store sys.tb = (sys.store, sys.tb) := by
      rw [cStep, hp]
    rw [this]
    exact ⟨ha, hb, hoa, hob, hnb⟩
  | doneInvalid =>
    have : cStep sys.store sys.tb = (sys.store, sys.tb) := by
      rw [cStep, hp]
    rw [this]
    exact ⟨ha, hb, hoa, hob, hnb⟩

theorem cInv_run {c : String} {sys : CSystem} (sched : List Bool)
    (h : cInv c sys) : cInv c (cRun sys sched) := by
  induction sched generalizing sys with
  | nil => exact h
  | cons pick rest ih =>
    cases pick with
    | true => exact ih (cInv_step_ta h)
    | false => exact ih (cInv_step_tb h)

/-- In every interleaving of two exchanges of the same code, at most one
invocation observes (and consumes) the pending record. -/
theorem cPair_at_most_one (store : List (String × PendingAuthorization))
    (c : String) (sched : List Bool) :
    (cObserved (cRun ⟨store, ⟨c, CPhase.start⟩, ⟨c, CPhase.start⟩⟩
        sched).ta.phase &&
      cObserved (cRun ⟨store, ⟨c, CPhase.start⟩, ⟨c, CPhase.start⟩⟩
        sched).tb.phase) = false := by
  have h0 : cInv c ⟨store, ⟨c, CPhase.start⟩, ⟨c, CPhase.start⟩⟩ := by
    refine ⟨rfl, rfl, ?_, ?_, ?_⟩ <;> simp [cObserved]
  exact (cInv_run sched h0).2.2.2.2


/-! ## Handler outcome lemmas -/

/-- The `PendingAuthorization` that `authorize_submit` stores for a given
form (each field is the form value after `request.form.get` defaulting). -/
def pendingOf (form : AuthorizeForm) : PendingAuthorization :=
  { client_id := form.client_id.getD "",
    redirect_uri := form.redirect_uri.getD "",
    code_challenge := form.code_challenge.getD "",
    nonce := form.nonce.getD "",
    username := form.username.getD "",
    scope := form.scope.getD "openid" }

theorem exchange_pkce_fail {s256 : String → String} {iss : String}
    {now : Nat} {fr fa code v : String} {st : ServerState}
    {stored : PendingAuthorization}
    (hstored : dlookup st.auth_codes code = some stored)
    (hch : stored.code_challenge ≠ "")
    (hv : s256 v ≠ stored.code_challenge) :
    handleAuthorizationCode s256 iss now fr fa code v st
      = (TokenResult.invalidGrant "PKCE mismatch",
         { st with auth_codes := derase st.auth_codes code }) := by
  simp only [handleAuthorizationCode, hstored]
  rw [if_pos ⟨hch, hv⟩]

theorem exchange_success {s256 : String → String} {iss : String}
    {now : Nat} {fr fa code v : String} {st : ServerState}
    {stored : PendingAuthorization}
    (hstored : dlookup st.auth_codes code = some stored)
    (hok : ¬(stored.code_challenge ≠ "" ∧ s256 v ≠ stored.code_challenge)) :
    handleAuthorizationCode s256 iss now fr fa code v st
      = (TokenResult.success
          { access_token := fa, token_type := "Bearer", expires_in := 3600,
            id_token := makeIdToken iss now stored.username stored.client_id
              (some stored.nonce),
            refresh_token := fr, scope := stored.scope },
         { auth_codes := derase st.auth_codes code,
           refresh_tokens := dset st.refresh_tokens fr
             { client_id := stored.client_id, username := stored.username,
               scope := stored.scope } }) := by
  simp only [handleAuthorizationCode, hstored]
  rw [if_neg hok]

theorem refresh_success {iss : String} {now : Nat} {ft fa tok : String}
    {st : ServerState} {stored : RefreshRecord}
    (hstored : dlookup st.refresh_tokens tok = some stored) :
    handleRefreshToken iss now ft fa tok st
      = (TokenResult.success
          { access_token := fa, token_type := "Bearer", expires_in := 3600,
            id_token := makeIdToken iss now stored.username stored.client_id
              none,
            refresh_token := ft, scope := stored.scope },
         { st with refresh_tokens :=
             derase (dset st.refresh_tokens ft stored) tok }) := by
  simp only [handleRefreshToken, hstored]

theorem authorize_reject {users : List (String × String)} {fc : String}
    {form : AuthorizeForm} {st : ServerState}
    (hcred : dlookup users (form.username.getD "")
      ≠ some (form.password.getD "")) :
    authorizeSubmit users fc form st
      = (AuthorizeResult.unauthorized "Invalid credentials" 401, st) := by
  simp only [authorizeSubmit]
  rw [if_pos hcred]

theorem authorize_success {users : List (String × String)} {fc : String}
    {form : AuthorizeForm} {st : ServerState}
    (hcred : dlookup users (form.username.getD "")
      = some (form.password.getD "")) :
    authorizeSubmit users fc form st
      = (AuthorizeResult.redirectTo
          (buildRedirect (form.redirect_uri.getD "") fc (form.state.getD "")),
         { st with auth_codes := dset st.auth_codes fc (pendingOf form) }) := by
  simp only [authorizeSubmit, pendingOf]
  rw [if_neg (not_not_intro hcred)]

/-! ## Claim theorems -/

/-- C1: Authorization codes are single-use: a successful
`authorization_code` exchange removes the `PendingAuthorization` entry
from the store, and after any further sequence of requests whose freshly
generated codes avoid `c`, a second exchange attempt with the same code
returns `invalid_grant` ("Unknown code"). -/
theorem auth_code_single_use (s256 : String → String) (iss : String)
    (now now2 : Nat) (users : List (String × String))
    (fr fa v fr2 fa2 v2 c : String) (st : ServerState)
    (stored : PendingAuthorization) (ops : List Op)
    (hstored : dlookup st.auth_codes c = some stored)
    (hpkce : ¬(stored.code_challenge ≠ "" ∧ s256 v ≠ stored.code_challenge))
    (hops : ∀ op ∈ ops, avoidsCode c op) :
    (∃ resp, (handleAuthorizationCode s256 iss now fr fa c v st).1
      = TokenResult.success resp) ∧
    dlookup (handleAuthorizationCode s256 iss now fr fa c v st).2.auth_codes c
      = none ∧
    (handleAuthorizationCode s256 iss now2 fr2 fa2 c v2
      (applyOps s256 iss now users
        (handleAuthorizationCode s256 iss now fr fa c v st).2 ops)).1
      = TokenResult.invalidGrant "Unknown code" := by
  have hsucc := @exchange_success s256 iss now fr fa c v st stored hstored hpkce
  have h1 : dlookup
      (handleAuthorizationCode s256 iss now fr fa c v st).2.auth_codes c
      = none := by
    simp [hsucc, dlookup_derase]
  exact ⟨⟨_, by rw [hsucc]⟩, h1,
    exchange_unknown_code (auth_codes_applyOps_none h1 hops)⟩

/-- Witness for C1 at a concrete store and empty interleaving. -/
theorem auth_code_single_use_witness :
    (∃ resp, (handleAuthorizationCode (fun _ => "") "i" 0 "R" "A" "C" ""
        ⟨[("C", ⟨"cl", "ru", "", "", "u", "openid"⟩)], []⟩).1
      = TokenResult.success resp) ∧
    dlookup (handleAuthorizationCode (fun _ => "") "i" 0 "R" "A" "C" ""
        ⟨[("C", ⟨"cl", "ru", "", "", "u", "openid"⟩)], []⟩).2.auth_codes "C"
      = none ∧
    (handleAuthorizationCode (fun _ => "") "i" 0 "R2" "A2" "C" ""
      (applyOps (fun _ => "") "i" 0 []
        (handleAuthorizationCode (fun _ => "") "i" 0 "R" "A" "C" ""
          ⟨[("C", ⟨"cl", "ru", "", "", "u", "openid"⟩)], []⟩).2 [])).1
      = TokenResult.invalidGrant "Unknown code" :=
  auth_code_single_use (fun _ => "") "i" 0 0 [] "R" "A" "" "R2" "A2" "" "C"
    ⟨[("C", ⟨"cl", "ru", "", "", "u", "openid"⟩)], []⟩
    ⟨"cl", "ru", "", "", "u", "openid"⟩ [] (by decide) (by simp) (by simp)

/-- C9: a PKCE-failed exchange still consumes the code: the pop happens
before the PKCE comparison, so after an `invalid_grant` "PKCE mismatch"
response every later exchange of the same code — any verifier, including
the correct one — fails with `invalid_grant` "Unknown code". -/
theorem pkce_failure_consumes_code (s256 : String → String) (iss : String)
    (now now2 : Nat) (users : List (String × String))
    (fr fa v fr2 fa2 c : String) (st : ServerState)
    (stored : PendingAuthorization) (ops : List Op)
    (hstored : dlookup st.auth_codes c = some stored)
    (hch : stored.code_challenge ≠ "")
    (hv : s256 v ≠ stored.code_challenge)
    (hops : ∀ op ∈ ops, avoidsCode c op) :
    (handleAuthorizationCode s256 iss now fr fa c v st).1
      = TokenResult.invalidGrant "PKCE mismatch" ∧
    dlookup (handleAuthorizationCode s256 iss now fr fa c v st).2.auth_codes c
      = none ∧
    ∀ v2, (handleAuthorizationCode s256 iss now2 fr2 fa2 c v2
      (applyOps s256 iss now users
        (handleAuthorizationCode s256 iss now fr fa c v st).2 ops)).1
      = TokenResult.invalidGrant "Unknown code" := by
  have hfail := @exchange_pkce_fail s256 iss now fr fa c v st stored
    hstored hch hv
  have h1 : dlookup
      (handleAuthorizationCode s256 iss now fr fa c v st).2.auth_codes c
      = none := by
    simp [hfail, dlookup_derase]
  exact ⟨by rw [hfail], h1,
    fun v2 => exchange_unknown_code (auth_codes_applyOps_none h1 hops)⟩

/-- Witness for C9: a mismatching verifier consumes the code, and even the
matching verifier fails afterwards. -/
theorem pkce_failure_consumes_code_witness :
    ((handleAuthorizationCode (fun x => if x = "ver" then "CH" else "BAD")
        "i" 0 "R" "A" "C" "wrong"
        ⟨[("C", ⟨"cl", "ru", "CH", "", "u", "openid"⟩)], []⟩).1
      = TokenResult.invalidGrant "PKCE mismatch") ∧
    dlookup (handleAuthorizationCode
        (fun x => if x = "ver" then "CH" else "BAD") "i" 0 "R" "A" "C"
        "wrong"
        ⟨[("C", ⟨"cl", "ru", "CH", "", "u", "openid"⟩)], []⟩).2.auth_codes "C"
      = none ∧
    ∀ v2, (handleAuthorizationCode
        (fun x => if x = "ver" then "CH" else "BAD") "i" 0 "R2" "A2" "C" v2
      (applyOps (fun x => if x = "ver" then "CH" else "BAD") "i" 0 []
        (handleAuthorizationCode
          (fun x => if x = "ver" then "CH" else "BAD") "i" 0 "R" "A" "C"
          "wrong"
          ⟨[("C", ⟨"cl", "ru", "CH", "", "u", "openid"⟩)], []⟩).2 [])).1
      = TokenResult.invalidGrant "Unknown code" :=
  pkce_failure_consumes_code (fun x => if x = "ver" then "CH" else "BAD")
    "i" 0 0 [] "R" "A" "wrong" "R2" "A2" "C"
    ⟨[("C", ⟨"cl", "ru", "CH", "", "u", "openid"⟩)], []⟩
    ⟨"cl", "ru", "CH", "", "u", "openid"⟩ [] (by decide) (by decide)
    (by decide) (by simp)

/-- C3: PKCE is enforced exactly when a challenge was stored: with a
non-empty stored `code_challenge` the exchange succeeds iff the digest of
the submitted verifier equals the challenge (a mismatch yields
`invalid_grant` "PKCE mismatch"); with an empty stored challenge every
verifier — the empty string included — succeeds. -/
theorem pkce_enforced_iff (s256 : String → String) (iss : String)
    (now : Nat) (fr fa c v : String) (st : ServerState)
    (stored : PendingAuthorization)
    (hstored : dlookup st.auth_codes c = some stored) :
    (stored.code_challenge ≠ "" →
      ((∃ resp, (handleAuthorizationCode s256 iss now fr fa c v st).1
          = TokenResult.success resp) ↔ s256 v = stored.code_challenge) ∧
      (s256 v ≠ stored.code_challenge →
        (handleAuthorizationCode s256 iss now fr fa c v st).1
          = TokenResult.invalidGrant "PKCE mismatch")) ∧
    (stored.code_challenge = "" →
      ∃ resp, (handleAuthorizationCode s256 iss now fr fa c v st).1
        = TokenResult.success resp) := by
  constructor
  · intro hch
    constructor
    · constructor
      · rintro ⟨resp, hresp⟩
        by_contra hne
        rw [@exchange_pkce_fail s256 iss now fr fa c v st stored
          hstored hch hne] at hresp
        exact TokenResult.noConfusion hresp
      · intro heq
        exact ⟨_, by rw [@exchange_success s256 iss now fr fa c v st stored
          hstored (fun hc => hc.2 heq)]⟩
    · intro hne
      rw [@exchange_pkce_fail s256 iss now fr fa c v st stored
        hstored hch hne]
  · intro hch
    exact ⟨_, by rw [@exchange_success s256 iss now fr fa c v st stored
      hstored (fun hc => hc.1 hch)]⟩

/-- Witness for C3 at a stored challenge and at an empty challenge with
the empty verifier. -/
theorem pkce_enforced_iff_witness :
    (((∃ resp, (handleAuthorizationCode
          (fun x => if x = "ver" then "CH" else "BAD") "i" 0 "R" "A" "C"
          "ver" ⟨[("C", ⟨"cl", "ru", "CH", "", "u", "openid"⟩)], []⟩).1
        = TokenResult.success resp) ↔
        (fun x : String => if x = "ver" then "CH" else "BAD") "ver" = "CH") ∧
      ((fun x : String => if x = "ver" then "CH" else "BAD") "ver" ≠ "CH" →
        (handleAuthorizationCode
          (fun x => if x = "ver" then "CH" else "BAD") "i" 0 "R" "A" "C"
          "ver" ⟨[("C", ⟨"cl", "ru", "CH", "", "u", "openid"⟩)], []⟩).1
          = TokenResult.invalidGrant "PKCE mismatch")) ∧
    (∃ resp, (handleAuthorizationCode
        (fun x => if x = "ver" then "CH" else "BAD") "i" 0 "R" "A" "C" ""
        ⟨[("C", ⟨"cl", "ru", "", "", "u", "openid"⟩)], []⟩).1
      = TokenResult.success resp) :=
  ⟨(pkce_enforced_iff (fun x => if x = "ver" then "CH" else "BAD") "i" 0
      "R" "A" "C" "ver"
      ⟨[("C", ⟨"cl", "ru", "CH", "", "u", "openid"⟩)], []⟩
      ⟨"cl", "ru", "CH", "", "u", "openid"⟩ (by decide)).1 (by decide),
   (pkce_enforced_iff (fun x => if x = "ver" then "CH" else "BAD") "i" 0
      "R" "A" "C" ""
      ⟨[("C", ⟨"cl", "ru", "", "", "u", "openid"⟩)], []⟩
      ⟨"cl", "ru", "", "", "u", "openid"⟩ (by decide)).2 (by decide)⟩

/-- C2: refresh tokens rotate: a successful refresh-grant exchange removes
the old record, installs the identical `{client_id, username, scope}`
record under the freshly generated value, and returns that value; after
any further requests whose fresh tokens avoid the old value, using the old
value fails with `invalid_grant`, while the newly issued value succeeds
and is itself consumed by that use. -/
theorem refresh_token_rotation (s256 : String → String) (iss : String)
    (now now2 : Nat) (users : List (String × String))
    (ft fa ft2 fa2 tok : String) (st : ServerState) (stored : RefreshRecord)
    (ops : List Op)
    (hstored : dlookup st.refresh_tokens tok = some stored)
    (hne : ft ≠ tok)
    (hops : ∀ op ∈ ops, avoidsTok tok op) :
    (handleRefreshToken iss now ft fa tok st).1
      = TokenResult.success
          { access_token := fa, token_type := "Bearer", expires_in := 3600,
            id_token := makeIdToken iss now stored.username stored.client_id
              none,
            refresh_token := ft, scope := stored.scope } ∧
    dlookup (handleRefreshToken iss now ft fa tok st).2.refresh_tokens tok
      = none ∧
    dlookup (handleRefreshToken iss now ft fa tok st).2.refresh_tokens ft
      = some stored ∧
    (handleRefreshToken iss now2 ft2 fa2 tok
      (applyOps s256 iss now users
        (handleRefreshToken iss now ft fa tok st).2 ops)).1
      = TokenResult.invalidGrant "Unknown refresh token" ∧
    (∃ resp, (handleRefreshToken iss now2 ft2 fa2 ft
        (handleRefreshToken iss now ft fa tok st).2).1
      = TokenResult.success resp) ∧
    dlookup (handleRefreshToken iss now2 ft2 fa2 ft
        (handleRefreshToken iss now ft fa tok st).2).2.refresh_tokens ft
      = none := by
  have h1 := @refresh_success iss now ft fa tok st stored hstored
  have hgone : dlookup
      (handleRefreshToken iss now ft fa tok st).2.refresh_tokens tok
      = none := by
    simp [h1, dlookup_derase]
  have hnew : dlookup
      (handleRefreshToken iss now ft fa tok st).2.refresh_tokens ft
      = some stored := by
    simp [h1, dlookup_derase, dlookup_dset, hne]
  have h2 := @refresh_success iss now2 ft2 fa2 ft
    (handleRefreshToken iss now ft fa tok st).2 stored hnew
  refine ⟨by rw [h1], hgone, hnew, ?_, ⟨_, by rw [h2]⟩, ?_⟩
  · exact refresh_unknown_token (refresh_tokens_applyOps_none hgone hops)
  · simp [h2, dlookup_derase]

/-- Witness for C2 at a one-record store and empty interleaving. -/
theorem refresh_token_rotation_witness :
    ((handleRefreshToken "i" 0 "NT" "A" "T"
        ⟨[], [("T", ⟨"cl", "u", "openid"⟩)]⟩).1
      = TokenResult.success
          { access_token := "A", token_type := "Bearer", expires_in := 3600,
            id_token := makeIdToken "i" 0 "u" "cl" none,
            refresh_token := "NT", scope := "openid" }) ∧
    dlookup (handleRefreshToken "i" 0 "NT" "A" "T"
        ⟨[], [("T", ⟨"cl", "u", "openid"⟩)]⟩).2.refresh_tokens "T" = none ∧
    dlookup (handleRefreshToken "i" 0 "NT" "A" "T"
        ⟨[], [("T", ⟨"cl", "u", "openid"⟩)]⟩).2.refresh_tokens "NT"
      = some ⟨"cl", "u", "openid"⟩ ∧
    (handleRefreshToken "i" 1 "NT2" "A2" "T"
      (applyOps (fun _ => "") "i" 0 []
        (handleRefreshToken "i" 0 "NT" "A" "T"
          ⟨[], [("T", ⟨"cl", "u", "openid"⟩)]⟩).2 [])).1
      = TokenResult.invalidGrant "Unknown refresh token" ∧
    (∃ resp, (handleRefreshToken "i" 1 "NT2" "A2" "NT"
        (handleRefreshToken "i" 0 "NT" "A" "T"
          ⟨[], [("T", ⟨"cl", "u", "openid"⟩)]⟩).2).1
      = TokenResult.success resp) ∧
    dlookup (handleRefreshToken "i" 1 "NT2" "A2" "NT"
        (handleRefreshToken "i" 0 "NT" "A" "T"
          ⟨[], [("T", ⟨"cl", "u", "openid"⟩)]⟩).2).2.refresh_tokens "NT"
      = none :=
  refresh_token_rotation (fun _ => "") "i" 0 1 [] "NT" "A" "NT2" "A2" "T"
    ⟨[], [("T", ⟨"cl", "u", "openid"⟩)]⟩ ⟨"cl", "u", "openid"⟩ []
    (by decide) (by decide) (by simp)

/-- C5: nonce asymmetry: an ID token minted by the code-grant path carries
a `nonce` claim exactly when the stored `PendingAuthorization` has a
non-empty `nonce` (the value the originating authorize request submitted,
as the stored record shows), while an ID token minted by the refresh-grant
path never carries a `nonce` claim. -/
theorem nonce_asymmetry (s256 : String → String) (iss : String) (now : Nat)
    (fr fa c v ft fa2 tok fc : String) (st stR stA : ServerState)
    (stored : PendingAuthorization) (recR : RefreshRecord)
    (users : List (String × String)) (form : AuthorizeForm)
    (hA : dlookup st.auth_codes c = some stored)
    (hpkce : ¬(stored.code_challenge ≠ "" ∧ s256 v ≠ stored.code_challenge))
    (hR : dlookup stR.refresh_tokens tok = some recR)
    (hcred : dlookup users (form.username.getD "")
      = some (form.password.getD "")) :
    (∃ resp, (handleAuthorizationCode s256 iss now fr fa c v st).1
        = TokenResult.success resp ∧
      (resp.id_token.claims.nonce ≠ none ↔ stored.nonce ≠ "") ∧
      (stored.nonce ≠ "" →
        resp.id_token.claims.nonce = some stored.nonce)) ∧
    (∃ resp, (handleRefreshToken iss now ft fa2 tok stR).1
        = TokenResult.success resp ∧
      resp.id_token.claims.nonce = none) ∧
    dlookup (authorizeSubmit users fc form stA).2.auth_codes fc
      = some (pendingOf form) := by
  have h1 := @exchange_success s256 iss now fr fa c v st stored hA hpkce
  have h2 := @refresh_success iss now ft fa2 tok stR recR hR
  refine ⟨⟨_, by rw [h1], ?_, ?_⟩, ⟨_, by rw [h2], ?_⟩, ?_⟩
  · by_cases hn : stored.nonce = "" <;>
      simp [makeIdToken, pyTruthy, hn]
  · intro hn
    simp [makeIdToken, pyTruthy, hn]
  · simp [makeIdToken, pyTruthy]
  · rw [authorize_success hcred]
    simp [dlookup_dset]

/-- Witness for C5: a non-empty nonce on the code path, the refresh path,
and the authorize-stored record, in one concrete scenario. -/
theorem nonce_asymmetry_witness :
    (∃ resp, (handleAuthorizationCode (fun _ => "") "i" 0 "R" "A" "C" ""
        ⟨[("C", ⟨"cl", "ru", "", "non", "u", "openid"⟩)], []⟩).1
        = TokenResult.success resp ∧
      (resp.id_token.claims.nonce ≠ none ↔ ("non" : String) ≠ "") ∧
      (("non" : String) ≠ "" →
        resp.id_token.claims.nonce = some "non")) ∧
    (∃ resp, (handleRefreshToken "i" 0 "NT" "A2" "T"
        ⟨[], [("T", ⟨"cl", "u", "openid"⟩)]⟩).1
        = TokenResult.success resp ∧
      resp.id_token.claims.nonce = none) ∧
    dlookup (authorizeSubmit [("u", "pw")] "FC"
        ⟨some "u", some "pw", some "http://cb", some "cl", some "", some "",
         some "", none⟩
        ⟨[], []⟩).2.auth_codes "FC"
      = some (pendingOf
          ⟨some "u", some "pw", some "http://cb", some "cl", some "", some "",
           some "", none⟩) :=
  nonce_asymmetry (fun _ => "") "i" 0 "R" "A" "C" "" "NT" "A2" "T" "FC"
    ⟨[("C", ⟨"cl", "ru", "", "non", "u", "openid"⟩)], []⟩
    ⟨[], [("T", ⟨"cl", "u", "openid"⟩)]⟩ ⟨[], []⟩
    ⟨"cl", "ru", "", "non", "u", "openid"⟩ ⟨"cl", "u", "openid"⟩
    [("u", "pw")]
    ⟨some "u", some "pw", some "http://cb", some "cl", some "", some "",
     some "", none⟩
    (by decide) (by simp) (by decide) (by decide)

/-- C4: every minted ID token (either grant path) has `iss` equal to the
configured issuer, `sub` the authenticated username, `aud` the client_id
of the originating authorize request (the stored record's fields, which
the authorize handler fills from the submitted form), `exp = iat + 3600`,
`email = username ++ "@test.local"`, `preferred_username = username`, and
header `kid` equal to the kid of the single JWKS entry, which is the sole
key and has `kty=RSA`, `use=sig`, `alg=RS256`. -/
theorem id_token_claims_ok (s256 : String → String) (iss : String)
    (now : Nat) (nE eE fr fa c v ft fa2 tok fc : String)
    (st stR stA : ServerState) (stored : PendingAuthorization)
    (recR : RefreshRecord) (users : List (String × String))
    (form : AuthorizeForm)
    (hA : dlookup st.auth_codes c = some stored)
    (hpkce : ¬(stored.code_challenge ≠ "" ∧ s256 v ≠ stored.code_challenge))
    (hR : dlookup stR.refresh_tokens tok = some recR)
    (hcred : dlookup users (form.username.getD "")
      = some (form.password.getD "")) :
    (∀ u cl non, (makeIdToken iss now u cl non).claims.iss = iss ∧
      (makeIdToken iss now u cl non).claims.sub = u ∧
      (makeIdToken iss now u cl non).claims.aud = cl ∧
      (makeIdToken iss now u cl non).claims.exp
        = (makeIdToken iss now u cl non).claims.iat + 3600 ∧
      (makeIdToken iss now u cl non).claims.email = u ++ "@test.local" ∧
      (makeIdToken iss now u cl non).claims.preferred_username = u ∧
      (makeIdToken iss now u cl non).kid = mockKid) ∧
    (∃ resp, (handleAuthorizationCode s256 iss now fr fa c v st).1
        = TokenResult.success resp ∧
      resp.id_token
        = makeIdToken iss now stored.username stored.client_id
            (some stored.nonce) ∧
      dlookup (handleAuthorizationCode s256 iss now fr fa c v
          st).2.refresh_tokens fr
        = some { client_id := stored.client_id,
                 username := stored.username, scope := stored.scope }) ∧
    (∃ resp, (handleRefreshToken iss now ft fa2 tok stR).1
        = TokenResult.success resp ∧
      resp.id_token = makeIdToken iss now recR.username recR.client_id
        none) ∧
    dlookup (authorizeSubmit users fc form stA).2.auth_codes fc
      = some (pendingOf form) ∧
    jwksDoc nE eE
      = [{ kty := "RSA", kid := mockKid, use := "sig", alg := "RS256",
           n := nE, e := eE }] ∧
    (∀ k ∈ jwksDoc nE eE, k.kid = mockKid) := by
  have h1 := @exchange_success s256 iss now fr fa c v st stored hA hpkce
  have h2 := @refresh_success iss now ft fa2 tok stR recR hR
  refine ⟨?_, ⟨_, by rw [h1], rfl, ?_⟩, ⟨_, by rw [h2], rfl⟩, ?_, rfl, ?_⟩
  · intro u cl non
    exact ⟨rfl, rfl, rfl, rfl, rfl, rfl, rfl⟩
  · simp [h1, dlookup_dset]
  · rw [authorize_success hcred]
    simp [dlookup_dset]
  · intro k hk
    simp [jwksDoc] at hk
    rw [hk]

/-- Witness for C4 in a concrete full scenario. -/
theorem id_token_claims_ok_witness :
    (∀ u cl non, (makeIdToken "i" 0 u cl non).claims.iss = "i" ∧
      (makeIdToken "i" 0 u cl non).claims.sub = u ∧
      (makeIdToken "i" 0 u cl non).claims.aud = cl ∧
      (makeIdToken "i" 0 u cl non).claims.exp
        = (makeIdToken "i" 0 u cl non).claims.iat + 3600 ∧
      (makeIdToken "i" 0 u cl non).claims.email = u ++ "@test.local" ∧
      (makeIdToken "i" 0 u cl non).claims.preferred_username = u ∧
      (makeIdToken "i" 0 u cl non).kid = mockKid) ∧
    (∃ resp, (handleAuthorizationCode (fun _ => "") "i" 0 "R" "A" "C" ""
        ⟨[("C", ⟨"cl", "ru", "", "non", "u", "openid"⟩)], []⟩).1
        = TokenResult.success resp ∧
      resp.id_token = makeIdToken "i" 0 "u" "cl" (some "non") ∧
      dlookup (handleAuthorizationCode (fun _ => "") "i" 0 "R" "A" "C" ""
          ⟨[("C", ⟨"cl", "ru", "", "non", "u", "openid"⟩)],
           []⟩).2.refresh_tokens "R"
        = some { client_id := "cl", username := "u", scope := "openid" }) ∧
    (∃ resp, (handleRefreshToken "i" 0 "NT" "A2" "T"
        ⟨[], [("T", ⟨"cl", "u", "openid"⟩)]⟩).1
        = TokenResult.success resp ∧
      resp.id_token = makeIdToken "i" 0 "u" "cl" none) ∧
    dlookup (authorizeSubmit [("u", "pw")] "FC"
        ⟨some "u", some "pw", some "http://cb", some "cl", none, some "non",
         none, none⟩ ⟨[], []⟩).2.auth_codes "FC"
      = some (pendingOf
          ⟨some "u", some "pw", some "http://cb", some "cl", none,
           some "non", none, none⟩) ∧
    jwksDoc "NN" "EE"
      = [{ kty := "RSA", kid := mockKid, use := "sig", alg := "RS256",
           n := "NN", e := "EE" }] ∧
    (∀ k ∈ jwksDoc "NN" "EE", k.kid = mockKid) :=
  id_token_claims_ok (fun _ => "") "i" 0 "NN" "EE" "R" "A" "C" "" "NT" "A2"
    "T" "FC" ⟨[("C", ⟨"cl", "ru", "", "non", "u", "openid"⟩)], []⟩
    ⟨[], [("T", ⟨"cl", "u", "openid"⟩)]⟩ ⟨[], []⟩
    ⟨"cl", "ru", "", "non", "u", "openid"⟩ ⟨"cl", "u", "openid"⟩
    [("u", "pw")]
    ⟨some "u", some "pw", some "http://cb", some "cl", none, some "non",
     none, none⟩
    (by decide) (by simp) (by decide) (by decide)

theorem code_mem_redirectQs (q c s : String) :
    ("code", [c]) ∈ redirectQs q c s := by
  unfold redirectQs
  by_cases hs : s = ""
  · rw [if_neg (not_not_intro hs)]
    exact mem_dset_self _ _ _
  · rw [if_pos hs]
    exact mem_dset_of_ne _ (mem_dset_self _ _ _)
      (show ("code" : String) ≠ "state" by decide)

theorem state_mem_redirectQs (q c s : String) (hs : s ≠ "") :
    ("state", [s]) ∈ redirectQs q c s := by
  unfold redirectQs
  rw [if_pos hs]
  exact mem_dset_self _ _ _

/-- C6: `POST /authorize` authenticates by exact match against the user
directory: on a missing user or a differing password the response is the
401 body with no redirect and the state — the pending-authorization store
included — is unchanged; on a match the submitted parameters plus the
username are stored as a `PendingAuthorization` under the fresh code and
the response redirects to `redirect_uri` with `code` and, when the
submitted `state` is non-empty, `state` in the query. -/
theorem authorize_behavior (users : List (String × String)) (fc : String)
    (form : AuthorizeForm) (st : ServerState) :
    (dlookup users (form.username.getD "")
        ≠ some (form.password.getD "") →
      authorizeSubmit users fc form st
        = (AuthorizeResult.unauthorized "Invalid credentials" 401, st)) ∧
    (dlookup users (form.username.getD "")
        = some (form.password.getD "") →
      authorizeSubmit users fc form st
        = (AuthorizeResult.redirectTo
            (buildRedirect (form.redirect_uri.getD "") fc
              (form.state.getD "")),
           { st with auth_codes := dset st.auth_codes fc (pendingOf form) }) ∧
      dlookup (authorizeSubmit users fc form st).2.auth_codes fc
        = some (pendingOf form) ∧
      ("code", [fc]) ∈ redirectQs (urlsplitQ (form.redirect_uri.getD "")).2
        fc (form.state.getD "") ∧
      (form.state.getD "" ≠ "" →
        ("state", [form.state.getD ""])
          ∈ redirectQs (urlsplitQ (form.redirect_uri.getD "")).2 fc
            (form.state.getD ""))) := by
  constructor
  · intro hbad
    exact authorize_reject hbad
  · intro hcred
    refine ⟨authorize_success hcred, ?_, code_mem_redirectQs _ _ _, ?_⟩
    · rw [authorize_success hcred]
      simp [dlookup_dset]
    · intro hs
      exact state_mem_redirectQs _ _ _ hs

/-- Witness for C6: a rejected and an accepted credential submission. -/
theorem authorize_behavior_witness :
    (authorizeSubmit [("testuser", "testpass123")] "FC"
        ⟨some "testuser", some "wrong", some "http://cb", some "cl",
         some "", some "", some "", none⟩ ⟨[], []⟩
      = (AuthorizeResult.unauthorized "Invalid credentials" 401,
         ⟨[], []⟩)) ∧
    (authorizeSubmit [("testuser", "testpass123")] "FC"
        ⟨some "testuser", some "testpass123", some "http://cb?a=1",
         some "cl", some "xyz", some "", some "", none⟩ ⟨[], []⟩
      = (AuthorizeResult.redirectTo
          (buildRedirect "http://cb?a=1" "FC" "xyz"),
         { auth_codes := dset [] "FC" (pendingOf ⟨some "testuser", some "testpass123", some "http://cb?a=1", some "cl", some "xyz", some "", some "", none⟩),
           refresh_tokens := [] })) ∧
    ("state", ["xyz"]) ∈ redirectQs (urlsplitQ "http://cb?a=1").2 "FC"
      "xyz" :=
  ⟨(authorize_behavior [("testuser", "testpass123")] "FC"
      ⟨some "testuser", some "wrong", some "http://cb", some "cl",
       some "", some "", some "", none⟩ ⟨[], []⟩).1 (by decide),
   ((authorize_behavior [("testuser", "testpass123")] "FC"
      ⟨some "testuser", some "testpass123", some "http://cb?a=1",
       some "cl", some "xyz", some "", some "", none⟩ ⟨[], []⟩).2
      (by decide)).1,
   ((authorize_behavior [("testuser", "testpass123")] "FC"
      ⟨some "testuser", some "testpass123", some "http://cb?a=1",
       some "cl", some "xyz", some "", some "", none⟩ ⟨[], []⟩).2
      (by decide)).2.2.2 (by decide)⟩

/-- C10 counterexample: the redirect built from a `redirect_uri` whose
query carries the blank-valued parameter `foo` (`?foo=`) contains no `foo`
parameter at all — `parse_qs` drops blank values, so presence alone is not
preserved. -/
theorem redirect_query_merge_counterexample :
    redirectQs "foo=" "C" "" = [("code", ["C"])] ∧
    buildRedirect "http://cb?foo=" "C" "" = "http://cb?code=C" := by
  exact ⟨rfl, rfl⟩

/-- C10 (amended): the success redirect preserves every query parameter of
`redirect_uri` that has a non-empty value (all of `parse_qs`'s output —
blank-valued parameters were already dropped by parsing); a pre-existing
`code` is overwritten by the fresh code; `state` is overwritten when the
submitted state is non-empty and survives unchanged when it is empty. -/
theorem redirect_query_merge (q c s k : String) (vs : List String) :
    ((k, vs) ∈ parseQs q → k ≠ "code" → k ≠ "state" →
      (k, vs) ∈ redirectQs q c s) ∧
    ("code", [c]) ∈ redirectQs q c s ∧
    (s ≠ "" → ("state", [s]) ∈ redirectQs q c s) ∧
    (s = "" → ("state", vs) ∈ parseQs q →
      ("state", vs) ∈ redirectQs q c s) ∧
    (∀ p ∈ parseQs q, p.2 ≠ [] ∧ ∀ x ∈ p.2, x ≠ "") := by
  refine ⟨?_, code_mem_redirectQs _ _ _,
    fun hs => state_mem_redirectQs q c s hs, ?_,
    fun p hp => parseQs_goodVals p hp⟩
  · intro hmem hc hstt
    unfold redirectQs
    by_cases hs : s = ""
    · rw [if_neg (not_not_intro hs)]
      exact mem_dset_of_ne _ hmem hc
    · rw [if_pos hs]
      exact mem_dset_of_ne _ (mem_dset_of_ne _ hmem hc) hstt
  · intro hs hmem
    unfold redirectQs
    rw [if_neg (not_not_intro hs)]
    exact mem_dset_of_ne _ hmem
      (show ("state" : String) ≠ "code" by decide)

/-- Witness for the amended C10 on concrete queries. -/
theorem redirect_query_merge_witness :
    ("a", ["1"]) ∈ redirectQs "a=1&state=old&code=z" "C" "" ∧
    ("code", ["C"]) ∈ redirectQs "a=1&state=old&code=z" "C" "" ∧
    ("state", ["old"]) ∈ redirectQs "a=1&state=old&code=z" "C" "" ∧
    ("state", ["S"]) ∈ redirectQs "a=1" "C" "S" :=
  ⟨(redirect_query_merge "a=1&state=old&code=z" "C" "" "a" ["1"]).1
      (by decide) (by decide) (by decide),
   (redirect_query_merge "a=1&state=old&code=z" "C" "" "a" ["1"]).2.1,
   (redirect_query_merge "a=1&state=old&code=z" "C" "" "state"
      ["old"]).2.2.2.1 rfl (by decide),
   (redirect_query_merge "a=1" "C" "S" "x" []).2.2.1 (by decide)⟩

/-- C8 counterexample: with both environment variables absent the startup
configuration resolves to the built-in defaults — the process serves
rather than failing. -/
theorem startup_defaults :
    loadConfig none none
      = some { issuer := "http://mock-oidc:8080",
               users := [("testuser", "testpass123"),
                         ("admin", "adminpass123")] } := by
  rfl

/-- C8 (amended): missing startup configuration is never fatal: loading
always succeeds, and with both variables absent the issuer and the user
directory fall back to their built-in defaults. -/
theorem startup_never_fails (issuerEnv usersEnv : Option String) :
    (loadConfig issuerEnv usersEnv).isSome = true ∧
    loadConfig none none
      = some { issuer := defaultIssuer,
               users := parseUsersCfg defaultUsersRaw } :=
  ⟨rfl, rfl⟩

/-- C7 counterexample: interleaving two refreshes of the token `"T"` as
get-A, get-B, insert-A, delete-A, insert-B, delete-B makes both
invocations observe the record and install their fresh tokens (`"NA"` and
`"NB"` are both in the final store); the loser ends `crashed` (the `del`
raises `KeyError`, an HTTP 500), not `doneInvalid` (`invalid_grant`). -/
theorem refresh_interleaving_breaks :
    rRun ⟨[("T", ⟨"cl", "u", "openid"⟩)], ⟨"T", "NA", RPhase.start⟩,
          ⟨"T", "NB", RPhase.start⟩⟩ [true, false, true, true, false, false]
      = ⟨[("NA", ⟨"cl", "u", "openid"⟩), ("NB", ⟨"cl", "u", "openid"⟩)],
         ⟨"T", "NA", RPhase.doneSuccess ⟨"cl", "u", "openid"⟩⟩,
         ⟨"T", "NB", RPhase.crashed⟩⟩ ∧
    RPhase.crashed ≠ RPhase.doneInvalid := by
  exact ⟨rfl, by decide⟩

/-- C7 (amended): the pending-authorization store is consumed by a single
atomic pop, so in every interleaving of two exchanges of the same code at
most one observes the record; the refresh handler, however, accesses its
store in three unsynchronized steps: run serially the second invocation
fails with `invalid_grant`, but an interleaving exists where both observe
the record, both fresh tokens get installed, and the loser crashes with
`KeyError` instead of returning `invalid_grant`. -/
theorem store_atomicity_status :
    (∀ (store : List (String × PendingAuthorization)) (c : String)
        (sched : List Bool),
      (cObserved (cRun ⟨store, ⟨c, CPhase.start⟩, ⟨c, CPhase.start⟩⟩
          sched).ta.phase &&
        cObserved (cRun ⟨store, ⟨c, CPhase.start⟩, ⟨c, CPhase.start⟩⟩
          sched).tb.phase) = false) ∧
    rRun ⟨[("T", ⟨"cl", "u", "openid"⟩)], ⟨"T", "NA", RPhase.start⟩,
          ⟨"T", "NB", RPhase.start⟩⟩ [true, true, true, false]
      = ⟨[("NA", ⟨"cl", "u", "openid"⟩)],
         ⟨"T", "NA", RPhase.doneSuccess ⟨"cl", "u", "openid"⟩⟩,
         ⟨"T", "NB", RPhase.doneInvalid⟩⟩ ∧
    rRun ⟨[("T", ⟨"cl", "u", "openid"⟩)], ⟨"T", "NA", RPhase.start⟩,
          ⟨"T", "NB", RPhase.start⟩⟩ [true, false, true, true, false, false]
      = ⟨[("NA", ⟨"cl", "u", "openid"⟩), ("NB", ⟨"cl", "u", "openid"⟩)],
         ⟨"T", "NA", RPhase.doneSuccess ⟨"cl", "u", "openid"⟩⟩,
         ⟨"T", "NB", RPhase.crashed⟩⟩ :=
  ⟨cPair_at_most_one, rfl, rfl⟩

end MockOidc
